import Mathlib

/-!
Verification of the face-to-midi numeric core: a shallow embedding of
`midi_controller.py`, `face_tracker.py`, `calibration_wizard.py`,
`config_manager.py` and `main.py`. Python floats are modelled as `ℚ`,
Python ints as `ℤ`/`ℕ`, and `int(x)` as truncation toward zero. The MIDI
transport is modelled by the list of Control-Change messages a call hands
to the port, and the tkinter-driven calibration wizard as a state machine
whose events are the wizard's timer/button handlers.
-/

namespace FaceToMidi

/-- The three tracked axes. -/
inductive Axis
  | pitch
  | yaw
  | roll
deriving DecidableEq, Repr

/-- Python `int(x)` applied to a float: truncation toward zero. -/
def truncQ (q : ℚ) : ℤ :=
  if 0 ≤ q then ⌊q⌋ else ⌈q⌉

/-- `MIDIController.map_value` (midi_controller.py lines 87-116):
clamp the input to the input range, linearly interpolate into the output
range with `int` truncation, then clamp positionally to
`[output_min, output_max]`. -/
def map_value (input_value input_min input_max : ℚ)
    (output_min output_max : ℤ) : ℤ :=
  let v := max input_min (min input_max input_value)
  let input_range := input_max - input_min
  let output_range := output_max - output_min
  if input_range = 0 then
    output_min
  else
    let normalized := (v - input_min) / input_range
    let output_value := truncQ (normalized * (output_range : ℚ) + (output_min : ℚ))
    max output_min (min output_max output_value)

/-- Roll normalization in `FaceTracker.get_head_pose`
(face_tracker.py lines 95-100): fold one 180-degree flip. -/
def normalize_wrap (roll : ℚ) : ℚ :=
  if roll > 90 then roll - 180
  else if roll < -90 then roll + 180
  else roll

/-- `FaceTracker.smoothing_factor` (face_tracker.py line 27). -/
def smoothing_factor : ℚ := 3 / 10

/-- The roll smoothing / jump-rejection step of `FaceTracker.get_head_pose`
(face_tracker.py lines 102-113): given the stored `prev_roll` and a
normalized sample, return the output roll and the new stored `prev_roll`. -/
def roll_filter (prev : Option ℚ) (raw : ℚ) : ℚ × Option ℚ :=
  let roll :=
    match prev with
    | none => raw
    | some p => if |raw - p| > 60 then p else p + smoothing_factor * (raw - p)
  (roll, some roll)

/-- Per-axis configuration record (the axis entries of
`ConfigManager.get_default_config`, config_manager.py lines 19-46). -/
structure AxisConfig where
  enabled : Bool
  input_min : ℚ
  input_max : ℚ
  output_min : ℤ
  output_max : ℤ
  cc_number : ℕ
  channel : ℕ
deriving DecidableEq, Repr

/-- The `neutral` section of the configuration (config_manager.py
lines 57-61). -/
structure NeutralOffsets where
  pitch : ℚ
  yaw : ℚ
  roll : ℚ
deriving DecidableEq, Repr

/-- The parts of `ConfigManager.config` the numeric core reads and writes:
three axis entries plus the neutral offsets. -/
structure Config where
  pitch : AxisConfig
  yaw : AxisConfig
  roll : AxisConfig
  neutral : NeutralOffsets
deriving DecidableEq, Repr

/-- Look up `config[axis]`. -/
def Config.axisConfig : Config → Axis → AxisConfig
  | c, .pitch => c.pitch
  | c, .yaw => c.yaw
  | c, .roll => c.roll

/-- Replace `config[axis]`. -/
def Config.setAxisConfig : Config → Axis → AxisConfig → Config
  | c, .pitch, a => { c with pitch := a }
  | c, .yaw, a => { c with yaw := a }
  | c, .roll, a => { c with roll := a }

/-- `ConfigManager.get_default_config` (config_manager.py lines 17-62),
restricted to the fields the core uses. -/
def get_default_config : Config :=
  { pitch := ⟨true, -30, 30, 0, 127, 1, 0⟩
    yaw := ⟨true, -30, 30, 0, 127, 2, 0⟩
    roll := ⟨true, -30, 30, 0, 127, 3, 0⟩
    neutral := ⟨0, 0, 0⟩ }

/-- A MIDI message as built in `MIDIController.send_cc`
(midi_controller.py line 84): `[status, cc_number, value]`. -/
structure MidiMsg where
  status : ℕ
  data1 : ℕ
  data2 : ℤ
deriving DecidableEq, Repr

/-- The mutable state of `MIDIController`: whether a port is open and the
`last_values` cache initialised to `None` per axis
(midi_controller.py lines 27-32). -/
structure EmitterState where
  port_open : Bool
  last_pitch : Option ℤ
  last_yaw : Option ℤ
  last_roll : Option ℤ
deriving DecidableEq, Repr

/-- Look up `last_values[axis]`. -/
def EmitterState.lastValue : EmitterState → Axis → Option ℤ
  | s, .pitch => s.last_pitch
  | s, .yaw => s.last_yaw
  | s, .roll => s.last_roll

/-- The `head_pose` dictionary argument of `process_head_pose`: each axis
key may be absent. -/
structure HeadPose where
  pitch : Option ℚ
  yaw : Option ℚ
  roll : Option ℚ
deriving DecidableEq, Repr

/-- Look up `head_pose[axis]`. -/
def HeadPose.get : HeadPose → Axis → Option ℚ
  | h, .pitch => h.pitch
  | h, .yaw => h.yaw
  | h, .roll => h.roll

/-- The `midi_values` dictionary returned by `process_head_pose`: an axis
is absent when disabled or missing from the pose. -/
structure MidiResult where
  pitch : Option ℤ
  yaw : Option ℤ
  roll : Option ℤ
deriving DecidableEq, Repr

/-- Look up `midi_values[axis]`. -/
def MidiResult.get : MidiResult → Axis → Option ℤ
  | r, .pitch => r.pitch
  | r, .yaw => r.yaw
  | r, .roll => r.roll

/-- `MIDIController.send_cc` (midi_controller.py lines 72-85): the list of
messages handed to the port (empty when no port is open). -/
def send_cc (port_open : Bool) (channel cc_number : ℕ) (value : ℤ) :
    List MidiMsg :=
  if port_open then [⟨0xB0 + channel, cc_number, value⟩] else []

/-- One axis iteration of `MIDIController.process_head_pose`
(midi_controller.py lines 131-155): returns the new `last_values[axis]`,
the messages sent, and the entry added to `midi_values`. -/
def processAxis (last : Option ℤ) (port_open : Bool) (pose : Option ℚ)
    (cfg : AxisConfig) : Option ℤ × List MidiMsg × Option ℤ :=
  match pose with
  | none => (last, [], none)
  | some p =>
    if cfg.enabled then
      let midi_value :=
        map_value p cfg.input_min cfg.input_max cfg.output_min cfg.output_max
      if last ≠ some midi_value then
        (some midi_value, send_cc port_open cfg.channel cfg.cc_number midi_value,
          some midi_value)
      else
        (last, [], some midi_value)
    else
      (last, [], none)

/-- `MIDIController.process_head_pose` (midi_controller.py lines 118-157):
iterate over pitch, yaw, roll; return the new emitter state, the
concatenated transmissions, and the `midi_values` dictionary. -/
def process_head_pose (s : EmitterState) (pose : HeadPose) (cfg : Config) :
    EmitterState × List MidiMsg × MidiResult :=
  let p := processAxis s.last_pitch s.port_open pose.pitch cfg.pitch
  let y := processAxis s.last_yaw s.port_open pose.yaw cfg.yaw
  let r := processAxis s.last_roll s.port_open pose.roll cfg.roll
  (⟨s.port_open, p.1, y.1, r.1⟩, p.2.1 ++ y.2.1 ++ r.2.1, ⟨p.2.2, y.2.2, r.2.2⟩)

/-- `FaceToMIDIApp.update_axis_enabled` (main.py lines 325-327): toggling
an axis only writes `config[axis]['enabled']`. -/
def update_axis_enabled (cfg : Config) (a : Axis) (b : Bool) : Config :=
  cfg.setAxisConfig a { cfg.axisConfig a with enabled := b }

/-- The application state relevant to enable/disable: the shared config and
the `MIDIController` state. -/
structure AppState where
  config : Config
  emitter : EmitterState
deriving DecidableEq, Repr

/-- The enable/disable UI action: it updates the config and touches nothing
in the `MIDIController` (main.py lines 325-327). -/
def setAxisEnabled (st : AppState) (a : Axis) (b : Bool) : AppState :=
  { st with config := update_axis_enabled st.config a b }

/-- A tracking-loop call of `process_head_pose` against the current config
(main.py lines 555-558). -/
def appProcess (st : AppState) (pose : HeadPose) :
    AppState × List MidiMsg × MidiResult :=
  let r := process_head_pose st.emitter pose st.config
  ({ st with emitter := r.1 }, r.2.1, r.2.2)

/-- A raw pose sample: all three angles present. -/
structure Pose where
  pitch : ℚ
  yaw : ℚ
  roll : ℚ
deriving DecidableEq, Repr

/-- Look up `pose[axis]`. -/
def Pose.get : Pose → Axis → ℚ
  | p, .pitch => p.pitch
  | p, .yaw => p.yaw
  | p, .roll => p.roll

/-- The capture actions of the wizard steps
(calibration_wizard.py lines 27-84). -/
inductive Action
  | capture_neutral
  | capture_pitch_max
  | capture_pitch_min
  | capture_yaw_max
  | capture_yaw_min
  | capture_roll_max
  | capture_roll_min
  | complete
deriving DecidableEq, Repr

/-- The fixed step list `CalibrationWizard.calibration_steps`: action and
countdown duration in seconds. -/
def calibration_steps : List (Action × ℕ) :=
  [(.capture_neutral, 6), (.capture_pitch_max, 4), (.capture_pitch_min, 4),
   (.capture_yaw_max, 4), (.capture_yaw_min, 4), (.capture_roll_max, 4),
   (.capture_roll_min, 4), (.complete, 0)]

/-- Number of wizard steps (8). -/
def numSteps : ℕ := calibration_steps.length

/-- Index of the terminal COMPLETE step. -/
def completeIndex : ℕ := 7

/-- Action of the step at a given index. -/
def stepAction (n : ℕ) : Action :=
  (calibration_steps.getD n (Action.complete, 0)).1

/-- `CalibrationWizard.captured_values`: the six named capture slots. -/
structure Captured where
  pitch_min : Option ℚ
  pitch_max : Option ℚ
  yaw_min : Option ℚ
  yaw_max : Option ℚ
  roll_min : Option ℚ
  roll_max : Option ℚ
deriving DecidableEq, Repr

/-- Fresh, empty capture state. -/
def Captured.empty : Captured := ⟨none, none, none, none, none, none⟩

/-- The `{axis}_min` capture slot. -/
def Captured.minSlot : Captured → Axis → Option ℚ
  | c, .pitch => c.pitch_min
  | c, .yaw => c.yaw_min
  | c, .roll => c.roll_min

/-- The `{axis}_max` capture slot. -/
def Captured.maxSlot : Captured → Axis → Option ℚ
  | c, .pitch => c.pitch_max
  | c, .yaw => c.yaw_max
  | c, .roll => c.roll_max

/-- The state of `CalibrationWizard`: step counter, running flag, captured
neutral pose and slots, and the shared configuration it commits into. -/
structure WizardState where
  current_step : ℕ
  is_running : Bool
  neutral_values : Option Pose
  captured : Captured
  config : Config
deriving DecidableEq, Repr

/-- `self.neutral_values.get(axis, 0)`: 0 when no neutral was captured. -/
def neutralGetD (nv : Option Pose) (a : Axis) : ℚ :=
  match nv with
  | some n => n.get a
  | none => 0

/-- `CalibrationWizard.capture_position` (calibration_wizard.py lines
250-292): a missing pose records nothing; NEUTRAL stores the pose verbatim;
the six directional actions store `pose[axis] - neutral.get(axis, 0)`. -/
def capture_position (s : WizardState) (action : Action) (pose : Option Pose) :
    WizardState :=
  match pose with
  | none => s
  | some p =>
    match action with
    | .capture_neutral => { s with neutral_values := some p }
    | .capture_pitch_max =>
        { s with captured := { s.captured with
            pitch_max := some (p.pitch - neutralGetD s.neutral_values Axis.pitch) } }
    | .capture_pitch_min =>
        { s with captured := { s.captured with
            pitch_min := some (p.pitch - neutralGetD s.neutral_values Axis.pitch) } }
    | .capture_yaw_max =>
        { s with captured := { s.captured with
            yaw_max := some (p.yaw - neutralGetD s.neutral_values Axis.yaw) } }
    | .capture_yaw_min =>
        { s with captured := { s.captured with
            yaw_min := some (p.yaw - neutralGetD s.neutral_values Axis.yaw) } }
    | .capture_roll_max =>
        { s with captured := { s.captured with
            roll_max := some (p.roll - neutralGetD s.neutral_values Axis.roll) } }
    | .capture_roll_min =>
        { s with captured := { s.captured with
            roll_min := some (p.roll - neutralGetD s.neutral_values Axis.roll) } }
    | .complete => s

/-- The per-axis commit loop body of `CalibrationWizard.finish_calibration`
(calibration_wizard.py lines 326-337): when both slots are populated, write
the sorted extrema; otherwise leave the axis entry alone. -/
def commitAxis (mn mx : Option ℚ) (c : AxisConfig) : AxisConfig :=
  match mn, mx with
  | some a, some b => { c with input_min := min a b, input_max := max a b }
  | _, _ => c

/-- `ConfigManager.set_neutral_offsets` (config_manager.py lines 146-150)
applied to a full captured pose. -/
def set_neutral_offsets (cfg : Config) (p : Pose) : Config :=
  { cfg with neutral := ⟨p.pitch, p.yaw, p.roll⟩ }

/-- `CalibrationWizard.finish_calibration` (calibration_wizard.py lines
315-340): stop running, save neutral offsets when a neutral pose was
captured, then commit each axis with sorted extrema. -/
def finish_calibration (s : WizardState) : WizardState :=
  let cfg0 :=
    match s.neutral_values with
    | some p => set_neutral_offsets s.config p
    | none => s.config
  let cfg1 := { cfg0 with
    pitch := commitAxis s.captured.pitch_min s.captured.pitch_max cfg0.pitch
    yaw := commitAxis s.captured.yaw_min s.captured.yaw_max cfg0.yaw
    roll := commitAxis s.captured.roll_min s.captured.roll_max cfg0.roll }
  { s with is_running := false, config := cfg1 }

/-- The wizard's externally triggered handlers: the Start button, a
countdown finishing (capture the supplied pose, then advance), the Skip
button (advance without capturing), and the Cancel button / window close. -/
inductive Event
  | start
  | captureAdvance (pose : Option Pose)
  | skip
  | cancel
deriving DecidableEq, Repr

/-- `CalibrationWizard.next_step` together with `run_current_step`
(calibration_wizard.py lines 222-235 and 294-305): advance the step
counter; entering the COMPLETE step (or running past the end) invokes
`finish_calibration`. -/
def next_step_fn (s : WizardState) : WizardState :=
  if s.is_running then
    let s' := { s with current_step := s.current_step + 1 }
    if s'.current_step < numSteps then
      if stepAction s'.current_step = Action.complete then finish_calibration s'
      else s'
    else finish_calibration s'
  else s

/-- One wizard event: `start_calibration` resets the capture state and
counters (lines 210-220); a finished countdown captures at the current
step's action and advances (lines 237-248); `skip_step` advances without
capturing (lines 307-313); `cancel` clears the running flag and destroys
the window without committing (lines 342-345). -/
def stepEvent (s : WizardState) : Event → WizardState
  | .start =>
      { s with
          is_running := true
          current_step := 0
          neutral_values := none
          captured := Captured.empty }
  | .captureAdvance pose =>
      if s.is_running ∧ s.current_step < numSteps ∧
          stepAction s.current_step ≠ Action.complete then
        next_step_fn (capture_position s (stepAction s.current_step) pose)
      else s
  | .skip => next_step_fn s
  | .cancel => { s with is_running := false }

/-- Run a sequence of wizard events. -/
def run (s : WizardState) (evs : List Event) : WizardState :=
  evs.foldl stepEvent s

/-- The trace never reaches the COMPLETE step: every state along the event
sequence (including the final one) has `current_step < completeIndex`. -/
def staysBeforeComplete : WizardState → List Event → Bool
  | s, [] => s.current_step < completeIndex
  | s, e :: es =>
      (s.current_step < completeIndex : Bool) &&
        staysBeforeComplete (stepEvent s e) es

/-- A wizard before calibration has started. -/
def wizardInit : WizardState :=
  ⟨0, false, none, Captured.empty, get_default_config⟩

/-- A wizard state at the COMPLETE step whose captured pitch extrema are
reversed by sign: `pitch_min = 20`, `pitch_max = -5`. -/
def wizardExample : WizardState :=
  ⟨7, true, none, ⟨some 20, some (-5), none, none, none, none⟩,
    get_default_config⟩

/-- A fresh `MIDIController` cache with an open port. -/
def emitterExample : EmitterState := ⟨true, none, none, none⟩

/-- A pose dictionary carrying only a pitch reading. -/
def poseExample : HeadPose := ⟨some 15, none, none⟩

/-- A config with only pitch enabled, used for the disable/re-enable
scenarios. -/
def cexConfig : Config :=
  { pitch := ⟨true, -30, 30, 0, 127, 1, 0⟩
    yaw := ⟨false, -30, 30, 0, 127, 2, 0⟩
    roll := ⟨false, -30, 30, 0, 127, 3, 0⟩
    neutral := ⟨0, 0, 0⟩ }

/-- App state with `cexConfig` and a fresh emitter. -/
def cexApp : AppState := ⟨cexConfig, ⟨true, none, none, none⟩⟩

/-- A pose whose pitch maps to 127 under `cexConfig`. -/
def cexPose : HeadPose := ⟨some 30, none, none⟩

/-- App state whose emitter already transmitted 127 for pitch. -/
def c7State : AppState := ⟨cexConfig, ⟨true, some 127, none, none⟩⟩

end FaceToMidi

namespace FaceToMidi

/-- Truncation toward zero is monotone. -/
theorem truncQ_mono {a b : ℚ} (h : a ≤ b) : truncQ a ≤ truncQ b := by
  unfold truncQ
  by_cases ha : 0 ≤ a
  · rw [if_pos ha, if_pos (le_trans ha h)]
    exact Int.floor_le_floor h
  · rw [if_neg ha]
    by_cases hb : 0 ≤ b
    · rw [if_pos hb]
      have h1 : ⌈a⌉ ≤ 0 := Int.ceil_le.mpr (by push_cast; linarith [not_le.mp ha])
      have h2 : (0 : ℤ) ≤ ⌊b⌋ := Int.le_floor.mpr (by exact_mod_cast hb)
      omega
    · rw [if_neg hb]
      exact Int.ceil_le_ceil h

/-- Claim C3: for all arguments, `map_value` returns an integer in the
closed interval from `min output_min output_max` to
`max output_min output_max`, including when `output_min > output_max`. -/
theorem map_value_within_output_interval (value in_min in_max : ℚ)
    (out_min out_max : ℤ) :
    min out_min out_max ≤ map_value value in_min in_max out_min out_max ∧
    map_value value in_min in_max out_min out_max ≤ max out_min out_max := by
  simp only [map_value]
  split
  · omega
  · omega

/-- Claim C9: `map_value` is total on a degenerate input range: whenever
`in_max = in_min` it returns `output_min` (no division is attempted), and
in particular `map_value 5 10 10 0 127 = 0`. -/
theorem map_value_degenerate_range :
    (∀ (value in_min : ℚ) (out_min out_max : ℤ),
        map_value value in_min in_min out_min out_max = out_min) ∧
    map_value 5 10 10 0 127 = 0 := by
  constructor
  · intro v imn omn omx
    simp [map_value]
  · norm_num [map_value]

/-- Claim C8: with `output_min < output_max` fixed, `map_value` is monotone
non-decreasing in its value argument; and with `in_min < in_max` it clamps
at the extremes: `in_min - 100` maps to 0 and `in_max + 100` maps to 127
on the output range `[0, 127]`. -/
theorem map_value_monotone_and_clamps (in_min in_max : ℚ)
    (out_min out_max : ℤ) (hout : out_min < out_max) :
    (∀ v1 v2 : ℚ, v1 ≤ v2 →
        map_value v1 in_min in_max out_min out_max ≤
          map_value v2 in_min in_max out_min out_max) ∧
    (in_min < in_max →
        map_value (in_min - 100) in_min in_max 0 127 = 0 ∧
        map_value (in_max + 100) in_min in_max 0 127 = 127) := by
  constructor
  · intro v1 v2 h12
    simp only [map_value]
    split
    · exact le_refl _
    · rename_i hir
      rcases lt_trichotomy in_min in_max with hlt | heq | hgt
      · have hirpos : (0 : ℚ) < in_max - in_min := by linarith
        have hc : max in_min (min in_max v1) ≤ max in_min (min in_max v2) :=
          max_le_max (le_refl _) (min_le_min (le_refl _) h12)
        have hn : (max in_min (min in_max v1) - in_min) / (in_max - in_min) ≤
            (max in_min (min in_max v2) - in_min) / (in_max - in_min) :=
          (div_le_div_iff_of_pos_right hirpos).mpr (sub_le_sub_right hc _)
        have hoR : (0 : ℚ) ≤ ((out_max - out_min : ℤ) : ℚ) := by
          exact_mod_cast (by omega : (0 : ℤ) ≤ out_max - out_min)
        have hmul := add_le_add_right (mul_le_mul_of_nonneg_right hn hoR)
          ((out_min : ℤ) : ℚ)
        exact max_le_max (le_refl _) (min_le_min (le_refl _) (truncQ_mono hmul))
      · exact absurd (by rw [heq]; ring) hir
      · have hclamp : ∀ v : ℚ, max in_min (min in_max v) = in_min := fun v =>
          max_eq_left (le_trans (min_le_left _ _) (le_of_lt hgt))
        rw [hclamp v1, hclamp v2]
  · intro hin
    have hir : ¬ (in_max - in_min = 0) := by intro h; linarith
    constructor
    · simp only [map_value]
      rw [if_neg hir]
      have h1 : min in_max (in_min - 100) = in_min - 100 :=
        min_eq_right (by linarith)
      have h2 : max in_min (in_min - 100) = in_min := max_eq_left (by linarith)
      rw [h1, h2]
      norm_num [truncQ]
    · simp only [map_value]
      rw [if_neg hir]
      have h1 : min in_max (in_max + 100) = in_max := min_eq_left (by linarith)
      have h2 : max in_min in_max = in_max := max_eq_right (le_of_lt hin)
      rw [h1, h2]
      rw [div_self hir]
      norm_num [truncQ]

/-- Witness for C8 at the default pitch range. -/
theorem map_value_monotone_and_clamps_witness :
    (∀ v1 v2 : ℚ, v1 ≤ v2 →
        map_value v1 (-30) 30 0 127 ≤ map_value v2 (-30) 30 0 127) ∧
    ((-30 : ℚ) < 30 →
        map_value ((-30 : ℚ) - 100) (-30) 30 0 127 = 0 ∧
        map_value ((30 : ℚ) + 100) (-30) 30 0 127 = 127) :=
  map_value_monotone_and_clamps (-30) 30 0 127 (by norm_num)

/-- Claim C4 counterexample: the claim quantifies over every raw angle, but
at `a = 271` the code returns `271 - 180 = 91`, outside `[-90, 90]`. -/
theorem normalize_wrap_range_counterexample :
    ¬ (∀ a : ℚ, (-90 ≤ normalize_wrap a ∧ normalize_wrap a ≤ 90) ∧
        (normalize_wrap a - a = 0 ∨ normalize_wrap a - a = 180 ∨
          normalize_wrap a - a = -180)) := by
  intro h
  have h91 := (h 271).1.2
  norm_num [normalize_wrap] at h91

/-- Claim C4 (amended): for every raw angle in the pose domain
`(-180, 180]`, `normalize_wrap a` lies in `[-90, 90]` and differs from `a`
by exactly 0, +180, or -180. -/
theorem normalize_wrap_range_on_pose_domain (a : ℚ) (h1 : -180 < a)
    (h2 : a ≤ 180) :
    (-90 ≤ normalize_wrap a ∧ normalize_wrap a ≤ 90) ∧
    (normalize_wrap a - a = 0 ∨ normalize_wrap a - a = 180 ∨
      normalize_wrap a - a = -180) := by
  unfold normalize_wrap
  split_ifs with h3 h4
  · exact ⟨⟨by linarith, by linarith⟩, Or.inr (Or.inr (by ring))⟩
  · exact ⟨⟨by linarith, by linarith⟩, Or.inr (Or.inl (by ring))⟩
  · exact ⟨⟨by linarith, by linarith⟩, Or.inl (by ring)⟩

/-- Witness for the amended C4 at `a = 100`. -/
theorem normalize_wrap_range_on_pose_domain_witness :
    (-90 ≤ normalize_wrap 100 ∧ normalize_wrap 100 ≤ 90) ∧
    (normalize_wrap 100 - 100 = 0 ∨ normalize_wrap 100 - 100 = 180 ∨
      normalize_wrap 100 - 100 = -180) :=
  normalize_wrap_range_on_pose_domain 100 (by norm_num) (by norm_num)

/-- Claim C5: with a previous value present, a jump of more than 60 degrees
is rejected (the filter returns the previous value and the stored state is
unchanged; previous 0 and raw 61 yield 0), and otherwise the filter returns
and stores `previous + 0.3 * (raw - previous)` (previous 0 and raw 59 yield
17.7). -/
theorem roll_filter_jump_rejection_and_smoothing (p raw : ℚ) :
    (|raw - p| > 60 → roll_filter (some p) raw = (p, some p)) ∧
    (|raw - p| ≤ 60 →
      roll_filter (some p) raw =
        (p + smoothing_factor * (raw - p),
          some (p + smoothing_factor * (raw - p)))) ∧
    roll_filter (some 0) 61 = (0, some 0) ∧
    roll_filter (some 0) 59 = (177 / 10, some (177 / 10)) := by
  refine ⟨?_, ?_, ?_, ?_⟩
  · intro h
    simp [roll_filter, h]
  · intro h
    simp [roll_filter, not_lt.mpr h]
  · norm_num [roll_filter]
  · norm_num [roll_filter, smoothing_factor]

/-- Witness for C5: the rejection case at previous 0, raw 61. -/
theorem roll_filter_jump_rejection_and_smoothing_witness :
    roll_filter (some 0) 61 = (0, some 0) :=
  (roll_filter_jump_rejection_and_smoothing 0 61).1 (by norm_num)

/-- Claim C10: the roll filter preserves the interval `[-90, 90]`: if the
normalized sample and any stored previous value lie in `[-90, 90]`, so do
the returned roll and the new stored previous value. -/
theorem roll_filter_preserves_range_invariant (prev : Option ℚ) (raw : ℚ)
    (hraw : -90 ≤ raw ∧ raw ≤ 90)
    (hprev : ∀ p, prev = some p → -90 ≤ p ∧ p ≤ 90) :
    (-90 ≤ (roll_filter prev raw).1 ∧ (roll_filter prev raw).1 ≤ 90) ∧
    (∀ q, (roll_filter prev raw).2 = some q → -90 ≤ q ∧ q ≤ 90) := by
  obtain ⟨hr1, hr2⟩ := hraw
  have key : -90 ≤ (roll_filter prev raw).1 ∧ (roll_filter prev raw).1 ≤ 90 := by
    cases prev with
    | none => simpa [roll_filter] using ⟨hr1, hr2⟩
    | some p =>
      obtain ⟨hp1, hp2⟩ := hprev p rfl
      by_cases h : |raw - p| > 60
      · simpa [roll_filter, h] using ⟨hp1, hp2⟩
      · simp only [roll_filter, if_neg h, smoothing_factor]
        constructor <;> nlinarith
  refine ⟨key, ?_⟩
  intro q hq
  have hsnd : (roll_filter prev raw).2 = some (roll_filter prev raw).1 := by
    cases prev <;> simp [roll_filter]
  rw [hsnd] at hq
  injection hq with h
  exact h ▸ key

/-- Witness for C10 at previous 10, raw 50. -/
theorem roll_filter_preserves_range_invariant_witness :
    (-90 ≤ (roll_filter (some 10) 50).1 ∧ (roll_filter (some 10) 50).1 ≤ 90) ∧
    (∀ q, (roll_filter (some 10) 50).2 = some q → -90 ≤ q ∧ q ≤ 90) :=
  roll_filter_preserves_range_invariant (some 10) 50 (by norm_num)
    (by intro p hp; injection hp with h; subst h; norm_num)

/-- A second run of one axis with the state left by a first run returns the
same value, sends nothing, and leaves the cache unchanged. -/
theorem processAxis_second (last : Option ℤ) (po : Bool) (pose : Option ℚ)
    (cfg : AxisConfig) :
    processAxis (processAxis last po pose cfg).1 po pose cfg =
      ((processAxis last po pose cfg).1, [],
        (processAxis last po pose cfg).2.2) := by
  cases pose with
  | none => simp [processAxis]
  | some p =>
    by_cases he : cfg.enabled
    · by_cases hl : last ≠ some (map_value p cfg.input_min cfg.input_max
        cfg.output_min cfg.output_max)
      · simp [processAxis, he, hl]
      · push_neg at hl
        simp [processAxis, he, hl]
    · simp [processAxis, he]

/-- Any message an axis run emits is the Control-Change triple built from
the axis config, and then the new cache and the returned entry both hold
its value. -/
theorem processAxis_msg (last : Option ℤ) (po : Bool) (pose : Option ℚ)
    (cfg : AxisConfig) :
    ∀ msg ∈ (processAxis last po pose cfg).2.1,
      ∃ v : ℤ, msg = ⟨0xB0 + cfg.channel, cfg.cc_number, v⟩ ∧
        (processAxis last po pose cfg).1 = some v ∧
        (processAxis last po pose cfg).2.2 = some v := by
  intro msg hmsg
  cases pose with
  | none => simp [processAxis] at hmsg
  | some p =>
    by_cases he : cfg.enabled
    · by_cases hl : last ≠ some (map_value p cfg.input_min cfg.input_max
        cfg.output_min cfg.output_max)
      · refine ⟨map_value p cfg.input_min cfg.input_max cfg.output_min
          cfg.output_max, ?_, ?_, ?_⟩
        · simp only [processAxis, he, if_true, if_pos hl, send_cc] at hmsg
          by_cases hpo : po = true
          · simp [hpo] at hmsg
            simp [hmsg]
          · simp [Bool.not_eq_true] at hpo
            simp [hpo] at hmsg
        · simp [processAxis, he, hl]
        · simp [processAxis, he, hl]
      · simp [processAxis, he, hl] at hmsg
    · simp [processAxis, he] at hmsg

/-- An enabled axis with a present pose always contributes its mapped value
to the returned dictionary. -/
theorem processAxis_value (last : Option ℤ) (po : Bool) (p : ℚ)
    (cfg : AxisConfig) (he : cfg.enabled = true) :
    (processAxis last po (some p) cfg).2.2 =
      some (map_value p cfg.input_min cfg.input_max cfg.output_min
        cfg.output_max) := by
  by_cases hl : last ≠ some (map_value p cfg.input_min cfg.input_max
    cfg.output_min cfg.output_max)
  · simp [processAxis, he, hl]
  · push_neg at hl
    simp [processAxis, he, hl]

/-- For a MIDI channel in `[0, 15]`, `0xB0 + channel = 0xB0 ||| channel`. -/
theorem status_add_eq_lor {c : ℕ} (hc : c ≤ 15) : 0xB0 + c = Nat.lor 0xB0 c := by
  interval_cases c <;> decide

/-- Claim C2: two consecutive `process_head_pose` calls with identical pose
and calibration return identical mappings while the second call transmits
nothing; every transmitted message is the Control-Change triple
`(0xB0 ||| channel, cc_number, midi_value)` with the cache updated to
`midi_value`; and every enabled axis present in the pose appears in the
returned mapping with its mapped value. Channels are assumed in the MIDI
range `[0, 15]` stated by the data model. -/
theorem process_head_pose_dedup_and_message_form (s : EmitterState)
    (pose : HeadPose) (cfg : Config)
    (hch : ∀ a : Axis, (cfg.axisConfig a).channel ≤ 15) :
    ((process_head_pose (process_head_pose s pose cfg).1 pose cfg).2.2 =
        (process_head_pose s pose cfg).2.2) ∧
    ((process_head_pose (process_head_pose s pose cfg).1 pose cfg).2.1 = []) ∧
    (∀ msg ∈ (process_head_pose s pose cfg).2.1, ∃ (a : Axis) (v : ℤ),
        msg = ⟨Nat.lor 0xB0 ((cfg.axisConfig a).channel),
          (cfg.axisConfig a).cc_number, v⟩ ∧
        ((process_head_pose s pose cfg).1).lastValue a = some v ∧
        ((process_head_pose s pose cfg).2.2).get a = some v) ∧
    (∀ (a : Axis) (p : ℚ), pose.get a = some p →
        (cfg.axisConfig a).enabled = true →
        ((process_head_pose s pose cfg).2.2).get a =
          some (map_value p (cfg.axisConfig a).input_min
            (cfg.axisConfig a).input_max (cfg.axisConfig a).output_min
            (cfg.axisConfig a).output_max)) := by
  have hp := processAxis_second s.last_pitch s.port_open pose.pitch cfg.pitch
  have hy := processAxis_second s.last_yaw s.port_open pose.yaw cfg.yaw
  have hr := processAxis_second s.last_roll s.port_open pose.roll cfg.roll
  refine ⟨?_, ?_, ?_, ?_⟩
  · simp [process_head_pose, hp, hy, hr]
  · simp [process_head_pose, hp, hy, hr]
  · intro msg hmsg
    simp only [process_head_pose, List.mem_append] at hmsg
    rcases hmsg with (hmsg | hmsg) | hmsg
    · obtain ⟨v, hm, hlast, hval⟩ :=
        processAxis_msg s.last_pitch s.port_open pose.pitch cfg.pitch msg hmsg
      refine ⟨Axis.pitch, v, ?_, ?_, ?_⟩
      · rw [hm]
        have hst := status_add_eq_lor (hch Axis.pitch)
        simp only [Config.axisConfig] at hst ⊢
        rw [hst]
      · exact hlast
      · exact hval
    · obtain ⟨v, hm, hlast, hval⟩ :=
        processAxis_msg s.last_yaw s.port_open pose.yaw cfg.yaw msg hmsg
      refine ⟨Axis.yaw, v, ?_, ?_, ?_⟩
      · rw [hm]
        have hst := status_add_eq_lor (hch Axis.yaw)
        simp only [Config.axisConfig] at hst ⊢
        rw [hst]
      · exact hlast
      · exact hval
    · obtain ⟨v, hm, hlast, hval⟩ :=
        processAxis_msg s.last_roll s.port_open pose.roll cfg.roll msg hmsg
      refine ⟨Axis.roll, v, ?_, ?_, ?_⟩
      · rw [hm]
        have hst := status_add_eq_lor (hch Axis.roll)
        simp only [Config.axisConfig] at hst ⊢
        rw [hst]
      · exact hlast
      · exact hval
  · intro a p hpp he
    cases a <;>
      simp only [HeadPose.get] at hpp <;>
      simp only [Config.axisConfig] at he ⊢ <;>
      simp only [process_head_pose, MidiResult.get] <;>
      rw [hpp] <;>
      exact processAxis_value _ _ _ _ he

/-- Witness for C2 at the default config, a fresh emitter, and pitch 15. -/
theorem process_head_pose_dedup_and_message_form_witness :
    ((process_head_pose
        (process_head_pose emitterExample poseExample get_default_config).1
        poseExample get_default_config).2.2 =
      (process_head_pose emitterExample poseExample get_default_config).2.2) ∧
    ((process_head_pose
        (process_head_pose emitterExample poseExample get_default_config).1
        poseExample get_default_config).2.1 = []) ∧
    (∀ msg ∈ (process_head_pose emitterExample poseExample
        get_default_config).2.1, ∃ (a : Axis) (v : ℤ),
        msg = ⟨Nat.lor 0xB0 ((get_default_config.axisConfig a).channel),
          (get_default_config.axisConfig a).cc_number, v⟩ ∧
        ((process_head_pose emitterExample poseExample
            get_default_config).1).lastValue a = some v ∧
        ((process_head_pose emitterExample poseExample
            get_default_config).2.2).get a = some v) ∧
    (∀ (a : Axis) (p : ℚ), poseExample.get a = some p →
        (get_default_config.axisConfig a).enabled = true →
        ((process_head_pose emitterExample poseExample
            get_default_config).2.2).get a =
          some (map_value p (get_default_config.axisConfig a).input_min
            (get_default_config.axisConfig a).input_max
            (get_default_config.axisConfig a).output_min
            (get_default_config.axisConfig a).output_max)) :=
  process_head_pose_dedup_and_message_form emitterExample poseExample
    get_default_config (by intro a; cases a <;> decide)

/-- Claim C7 counterexample: after a transmission for pitch, disabling the
axis leaves the cache entry populated (it is never reset), and after
re-enabling, a process call with the same pose transmits nothing. -/
theorem last_values_reset_on_disable_counterexample :
    ((setAxisEnabled (appProcess cexApp cexPose).1 Axis.pitch
        false).emitter.lastValue Axis.pitch ≠ none) ∧
    ((appProcess (setAxisEnabled (setAxisEnabled (appProcess cexApp cexPose).1
        Axis.pitch false) Axis.pitch true) cexPose).2.1 = []) := by
  constructor
  · norm_num [appProcess, setAxisEnabled, update_axis_enabled,
      process_head_pose, processAxis, cexApp, cexConfig, cexPose, map_value,
      truncQ, send_cc, EmitterState.lastValue, Config.axisConfig,
      Config.setAxisConfig]
    simp
  · norm_num [appProcess, setAxisEnabled, update_axis_enabled,
      process_head_pose, processAxis, cexApp, cexConfig, cexPose, map_value,
      truncQ, send_cc, EmitterState.lastValue, Config.axisConfig,
      Config.setAxisConfig]
    simp

/-- Claim C7 (amended): the last-sent cache persists when an axis becomes
disabled — disabling only rewrites the config's enabled flag and leaves
the emitter untouched — so after re-enabling, the first process call does
not transmit for that axis when its mapped value equals the cached one. -/
theorem last_values_persist_on_disable (st : AppState) (a : Axis) :
    ((setAxisEnabled st a false).emitter = st.emitter) ∧
    (((setAxisEnabled (setAxisEnabled st a false) a
        true).config.axisConfig a).enabled = true) ∧
    (∀ (p : ℚ) (v : ℤ), st.emitter.lastValue a = some v →
        map_value p (st.config.axisConfig a).input_min
          (st.config.axisConfig a).input_max
          (st.config.axisConfig a).output_min
          (st.config.axisConfig a).output_max = v →
        (processAxis (st.emitter.lastValue a) st.emitter.port_open (some p)
          ((setAxisEnabled (setAxisEnabled st a false) a
            true).config.axisConfig a)).2.1 = []) := by
  refine ⟨rfl, ?_, ?_⟩
  · cases a <;> rfl
  · intro p v hlast hmap
    have hcfg : (setAxisEnabled (setAxisEnabled st a false) a
        true).config.axisConfig a =
        { st.config.axisConfig a with enabled := true } := by
      cases a <;> rfl
    rw [hcfg, hlast]
    simp [processAxis, hmap]

/-- Witness for the amended C7: cached pitch value 127, pose pitch 30. -/
theorem last_values_persist_on_disable_witness :
    ((setAxisEnabled c7State Axis.pitch false).emitter = c7State.emitter) ∧
    (((setAxisEnabled (setAxisEnabled c7State Axis.pitch false) Axis.pitch
        true).config.axisConfig Axis.pitch).enabled = true) ∧
    ((processAxis (c7State.emitter.lastValue Axis.pitch)
        c7State.emitter.port_open (some 30)
        ((setAxisEnabled (setAxisEnabled c7State Axis.pitch false) Axis.pitch
          true).config.axisConfig Axis.pitch)).2.1 = []) := by
  obtain ⟨h1, h2, h3⟩ := last_values_persist_on_disable c7State Axis.pitch
  refine ⟨h1, h2, ?_⟩
  exact h3 30 127 rfl
    (by norm_num [c7State, cexConfig, Config.axisConfig, map_value, truncQ])

/-- Entering the COMPLETE step under a bound: exactly index 7 carries the
complete action. -/
theorem stepAction_complete_iff :
    ∀ k, k < numSteps → (stepAction k = Action.complete ↔ k = 7) := by
  decide

/-- `finish_calibration` does not move the step counter. -/
theorem finish_calibration_current_step (s : WizardState) :
    (finish_calibration s).current_step = s.current_step := rfl

/-- Capturing a pose never touches the config, the step counter, or the
running flag. -/
theorem capture_position_fields (s : WizardState) (a : Action)
    (pose : Option Pose) :
    (capture_position s a pose).config = s.config ∧
    (capture_position s a pose).current_step = s.current_step ∧
    (capture_position s a pose).is_running = s.is_running := by
  cases pose with
  | none => exact ⟨rfl, rfl, rfl⟩
  | some p => cases a <;> exact ⟨rfl, rfl, rfl⟩

/-- An advance that lands strictly before the COMPLETE step leaves the
config unchanged. -/
theorem next_step_fn_config {s : WizardState}
    (h2 : (next_step_fn s).current_step < completeIndex) :
    (next_step_fn s).config = s.config := by
  have hns : numSteps = 8 := rfl
  have hci : completeIndex = 7 := rfl
  unfold next_step_fn at h2 ⊢
  by_cases hr : s.is_running
  · simp only [hr, if_true] at h2 ⊢
    split at h2
    · rename_i hlt
      split at h2
      · rename_i hact
        rw [finish_calibration_current_step] at h2
        have h7 := (stepAction_complete_iff _ hlt).mp hact
        simp only [WizardState.current_step] at h2
        omega
      · rename_i hact
        simp only [if_pos hlt, if_neg hact]
    · rename_i hlt
      rw [finish_calibration_current_step] at h2
      simp only [WizardState.current_step] at h2
      omega
  · rw [if_neg hr]

/-- Any wizard event whose successor state is strictly before the COMPLETE
step leaves the config unchanged. -/
theorem stepEvent_config {s : WizardState} {e : Event}
    (h2 : (stepEvent s e).current_step < completeIndex) :
    (stepEvent s e).config = s.config := by
  cases e with
  | start => rfl
  | cancel => rfl
  | skip => exact next_step_fn_config h2
  | captureAdvance pose =>
      simp only [stepEvent] at h2 ⊢
      split at h2
      · rename_i hcond
        rw [if_pos hcond]
        have hc := capture_position_fields s (stepAction s.current_step) pose
        calc (next_step_fn (capture_position s (stepAction s.current_step)
                pose)).config
            = (capture_position s (stepAction s.current_step) pose).config :=
              next_step_fn_config h2
          _ = s.config := hc.1
      · rename_i hcond
        rw [if_neg hcond]

/-- A trace that stays before COMPLETE starts before COMPLETE. -/
theorem staysBefore_head {s : WizardState} {l : List Event}
    (h : staysBeforeComplete s l = true) :
    s.current_step < completeIndex := by
  cases l with
  | nil => simpa [staysBeforeComplete] using h
  | cons e es =>
      have hand := (Bool.and_eq_true _ _).mp h
      simpa using hand.1

/-- Claim C6: if the calibration sequence is cancelled at any point before
reaching the COMPLETE state, no partial results are committed: the whole
configuration — every axis's calibration fields and the neutral offsets —
is exactly as it was when the trace started. -/
theorem cancel_before_complete_preserves_config (s0 : WizardState)
    (evs : List Event) (h : staysBeforeComplete s0 evs = true) :
    (run s0 (evs ++ [Event.cancel])).config = s0.config := by
  induction evs generalizing s0 with
  | nil => rfl
  | cons e es ih =>
      have h' : staysBeforeComplete (stepEvent s0 e) es = true := by
        have hand := (Bool.and_eq_true _ _).mp h
        exact hand.2
      have hstep : (stepEvent s0 e).current_step < completeIndex :=
        staysBefore_head h'
      have hcfg : (stepEvent s0 e).config = s0.config := stepEvent_config hstep
      have hrun : run s0 ((e :: es) ++ [Event.cancel]) =
          run (stepEvent s0 e) (es ++ [Event.cancel]) := rfl
      rw [hrun, ih _ h', hcfg]

/-- Witness for C6: start, capture a neutral pose, skip a step, then
cancel; the config is untouched. -/
theorem cancel_before_complete_preserves_config_witness :
    (run wizardInit ([Event.start, Event.captureAdvance (some ⟨1, 2, 3⟩),
        Event.skip] ++ [Event.cancel])).config = wizardInit.config :=
  cancel_before_complete_preserves_config wizardInit _ (by decide)

/-- Committing two populated slots writes the sorted extrema. -/
theorem commitAxis_some (a b : ℚ) (c : AxisConfig) :
    commitAxis (some a) (some b) c =
      { c with input_min := min a b, input_max := max a b } := rfl

/-- Committing with a missing slot changes nothing. -/
theorem commitAxis_none (mn mx : Option ℚ) (c : AxisConfig)
    (h : mn = none ∨ mx = none) : commitAxis mn mx c = c := by
  cases mn with
  | none => cases mx <;> rfl
  | some a =>
    cases mx with
    | none => rfl
    | some b => rcases h with h | h <;> simp at h

/-- Claim C1: at commit, an axis with both capture slots populated gets
`input_min` set to the smaller and `input_max` to the larger of the two
captured values (so `input_min ≤ input_max`; in particular captured
`pitch_max = -5` and `pitch_min = 20` yield `input_min = -5` and
`input_max = 20`), while an axis missing either slot keeps its `input_min`
and `input_max` unchanged. -/
theorem calibration_commit_sorts_extrema (s : WizardState) (a : Axis) :
    (∀ mn mx, Captured.minSlot s.captured a = some mn →
        Captured.maxSlot s.captured a = some mx →
        ((finish_calibration s).config.axisConfig a).input_min = min mn mx ∧
        ((finish_calibration s).config.axisConfig a).input_max = max mn mx ∧
        ((finish_calibration s).config.axisConfig a).input_min ≤
          ((finish_calibration s).config.axisConfig a).input_max) ∧
    (Captured.minSlot s.captured a = none ∨
        Captured.maxSlot s.captured a = none →
        ((finish_calibration s).config.axisConfig a).input_min =
            (s.config.axisConfig a).input_min ∧
        ((finish_calibration s).config.axisConfig a).input_max =
            (s.config.axisConfig a).input_max) ∧
    (s.captured.pitch_max = some (-5) → s.captured.pitch_min = some 20 →
        ((finish_calibration s).config.pitch).input_min = -5 ∧
        ((finish_calibration s).config.pitch).input_max = 20) := by
  refine ⟨?_, ?_, ?_⟩
  · intro mn mx hmn hmx
    cases a <;>
      simp only [Captured.minSlot, Captured.maxSlot] at hmn hmx <;>
      simp only [finish_calibration, Config.axisConfig] <;>
      cases s.neutral_values <;>
      simp only [set_neutral_offsets] <;>
      rw [hmn, hmx, commitAxis_some] <;>
      exact ⟨rfl, rfl, min_le_max⟩
  · intro hnone
    cases a <;>
      simp only [Captured.minSlot, Captured.maxSlot] at hnone <;>
      simp only [finish_calibration, Config.axisConfig] <;>
      cases s.neutral_values <;>
      simp only [set_neutral_offsets] <;>
      rw [commitAxis_none _ _ _ hnone] <;>
      exact ⟨rfl, rfl⟩
  · intro hmax hmin
    simp only [finish_calibration]
    cases s.neutral_values <;>
      simp only [set_neutral_offsets] <;>
      rw [hmin, hmax, commitAxis_some] <;>
      constructor <;>
      norm_num [min_def, max_def]

/-- Witness for C1: committing captured pitch extrema 20 and -5 stores
the sorted range. -/
theorem calibration_commit_sorts_extrema_witness :
    ((finish_calibration wizardExample).config.pitch).input_min = -5 ∧
    ((finish_calibration wizardExample).config.pitch).input_max = 20 :=
  (calibration_commit_sorts_extrema wizardExample Axis.pitch).2.2 rfl rfl

end FaceToMidi
